import Mathlib

/-!
Verification of kubeforge (github.com/ochestra-tech/kubeforge) against its
natural-language specification.

The Go sources are shallowly embedded: pure computations (string rendering,
line rewriting, parsing) become Lean functions on `String` / `List Char`;
the effectful installers become functions of an explicit `World` record that
fixes the outcome of each external command (kubectl, helm, file writes) and
of each readiness query, so that the control flow of the Go code is modelled
exactly while the outside world is a parameter.

Go strings are modelled as `String` (or `List Char` where character-level
reasoning is needed); Go `map[string]string` values are modelled by the list
of key/value pairs in the (unspecified) order a `range` loop of the given run
enumerates them.
-/

namespace Network

/-- Supported plugin name `calico` (network.go line 18). -/
def Calico : String := "calico"

/-- Supported plugin name `flannel` (network.go line 19). -/
def Flannel : String := "flannel"

/-- Supported plugin name `weave` (network.go line 20). -/
def Weave : String := "weave"

/-- Supported plugin name `cilium` (network.go line 21). -/
def Cilium : String := "cilium"

/-- `network.Config` (network.go lines 25-37).  `CustomValues` is a Go
`map[string]string`; it is modelled as the list of its key/value pairs in
the order the run's `range` loop happens to enumerate them. -/
structure Config where
  plugin : String
  podCIDR : String
  mtu : Int
  ipipMode : String
  vxlanMode : String
  enableEncryption : Bool
  enableNATOutgoing : Bool
  blockSize : Int
  enableeBPF : Bool
  kubeProxyReplacement : String
  customValues : List (String × String)

/-- `network.DefaultConfig` (network.go lines 40-54). -/
def DefaultConfig : Config :=
  { plugin := Calico
    podCIDR := "10.244.0.0/16"
    mtu := 0
    ipipMode := "Always"
    vxlanMode := "CrossSubnet"
    enableEncryption := false
    enableNATOutgoing := true
    blockSize := 26
    enableeBPF := false
    kubeProxyReplacement := "strict"
    customValues := [] }

/-- `network.ValidateCIDR` (network.go lines 57-64): error iff the string
has no `/` character (`strings.Contains(cidr, "/")` for the one-character
pattern `/` is exactly membership of the character). -/
def ValidateCIDR (cidr : String) : Except String Unit :=
  if !(cidr.toList.contains '/') then
    .error ("invalid CIDR format: " ++ cidr ++ ", should be in format x.x.x.x/y")
  else
    .ok ()

/-- The encapsulation value computed by `installCalico` (network.go lines
106-112): start from `"IPIP"`, overwrite with `"None"` when `IPIPMode` is
`"Never"`, then overwrite with `"VXLAN"+VXLANMode` when `VXLANMode` is not
`"Never"`. -/
def calicoEncapsulation (ipipMode vxlanMode : String) : String :=
  let e0 := "IPIP"
  let e1 := if ipipMode = "Never" then "None" else e0
  if vxlanMode ≠ "Never" then "VXLAN" ++ vxlanMode else e1

/-- The base of the Calico custom-resources text built by `installCalico`
(network.go lines 114-147): the `fmt.Sprintf` template, then the optional
MTU line, then the optional encryption lines. -/
def calicoResourcesBase (c : Config) : String :=
  "apiVersion: operator.tigera.io/v1\nkind: Installation\nmetadata:\n  name: default\nspec:\n  calicoNetwork:\n    ipPools:\n    - blockSize: "
    ++ toString c.blockSize
    ++ "\n      cidr: " ++ c.podCIDR
    ++ "\n      encapsulation: " ++ calicoEncapsulation c.ipipMode c.vxlanMode
    ++ "\n      natOutgoing: " ++ (if !c.enableNATOutgoing then "Disabled" else "Enabled")
    ++ "\n      nodeSelector: all()\n"
    ++ (if c.mtu > 0 then "    mtu: " ++ toString c.mtu ++ "\n" else "")
    ++ (if c.enableEncryption then "    ipipMode: Always\n    encryption: WireGuard\n" else "")

/-- The full Calico custom-resources text (network.go lines 124-152): the
base followed by one `    key: value` line per entry of `CustomValues`,
appended in the order `range` enumerates the map. -/
def calicoResources (c : Config) (order : List (String × String)) : String :=
  order.foldl (fun acc kv => acc ++ "    " ++ kv.1 ++ ": " ++ kv.2 ++ "\n")
    (calicoResourcesBase c)

/-- The readiness test applied to one `kubectl get pods ... -o jsonpath`
query in `waitForPodsReady` (network.go lines 502-519).  A sample is `none`
when the command failed, otherwise the list of pod phases (the jsonpath
output is the space-joined phases, so the output string is nonempty exactly
when the phase list is).  The Go loop returns success when the command
succeeded, the output was nonempty and every phase is `Running`. -/
def goodSample : Option (List String) → Bool
  | none => false
  | some phases => !phases.isEmpty && phases.all (fun p => p = "Running")

/-- The timeout error of `waitForPodsReady` (network.go line 497). -/
def timeoutMsg (labelSelector : String) : String :=
  "timeout waiting for pods with selector " ++ labelSelector

/-- The loop of `waitForPodsReady` (network.go lines 495-524) from iteration
`k` on.  Time is modelled by the iteration count: queries are instantaneous
and each failed iteration sleeps 10 seconds, so the elapsed time checked at
the top of iteration `k` is `10 * k` seconds; the loop errors when it
exceeds the timeout (`time.Since(start) > timeout`). -/
def waitForPodsReadyFrom (labelSelector : String) (samples : Nat → Option (List String))
    (timeoutSec : Nat) (k : Nat) : Except String Unit :=
  if h : 10 * k > timeoutSec then
    .error (timeoutMsg labelSelector)
  else if goodSample (samples k) then
    .ok ()
  else
    waitForPodsReadyFrom labelSelector samples timeoutSec (k + 1)
termination_by timeoutSec + 10 - 10 * k
decreasing_by omega

/-- `network.waitForPodsReady` (network.go lines 491-525): the polling loop
started at iteration 0. -/
def waitForPodsReady (labelSelector : String) (samples : Nat → Option (List String))
    (timeoutSec : Nat) : Except String Unit :=
  waitForPodsReadyFrom labelSelector samples timeoutSec 0

/-- Outcomes of the external commands an installer runs: each field fixes
whether the corresponding command or file write succeeds in this run, and
`samples` gives the result of the k-th readiness query (`none` = the
kubectl query itself failed). -/
structure World where
  tigeraOk : Bool
  writeOk : Bool
  applyOk : Bool
  helmFound : Bool
  helmGetOk : Bool
  repoAddOk : Bool
  helmInstallOk : Bool
  samples : Nat → Option (List String)

/-- `network.installCalico` (network.go lines 85-185): validate the CIDR,
deploy the Tigera operator, render and write the custom resources, apply
them, then poll for readiness with selector `k8s-app=calico-node` and a
5-minute (300 s) timeout; a polling error is only warned about and the
function returns success either way (lines 177-184). -/
def installCalico (c : Config) (w : World) : Except String Unit :=
  match ValidateCIDR c.podCIDR with
  | .error e => .error e
  | .ok _ =>
    if !w.tigeraOk then .error "failed to install Tigera operator"
    else
      let _text := calicoResources c c.customValues
      if !w.writeOk then .error "failed to write Calico resources file"
      else if !w.applyOk then .error "failed to apply Calico resources"
      else
        match waitForPodsReady "k8s-app=calico-node" w.samples 300 with
        | .error _ => .ok ()
        | .ok _ => .ok ()

/-- `network.installFlannel` (network.go lines 188-368): validate the CIDR,
write the rendered manifest (its text does not affect control flow and is
elided), apply it, then poll with selector `app=flannel`; a polling error is
only warned about and the function returns success (lines 360-367). -/
def installFlannel (c : Config) (w : World) : Except String Unit :=
  match ValidateCIDR c.podCIDR with
  | .error e => .error e
  | .ok _ =>
    if !w.writeOk then .error "failed to write Flannel config file"
    else if !w.applyOk then .error "failed to apply Flannel configuration"
    else
      match waitForPodsReady "app=flannel" w.samples 300 with
      | .error _ => .ok ()
      | .ok _ => .ok ()

/-- `network.installWeave` (network.go lines 371-403): validate the CIDR
only when it is nonempty, apply the released manifest, then poll with
selector `name=weave-net`; a polling error is only warned about and the
function returns success (lines 395-402). -/
def installWeave (c : Config) (w : World) : Except String Unit :=
  match (if c.podCIDR ≠ "" then ValidateCIDR c.podCIDR else .ok ()) with
  | .error e => .error e
  | .ok _ =>
    if !w.applyOk then .error "failed to install Weave Net"
    else
      match waitForPodsReady "name=weave-net" w.samples 300 with
      | .error _ => .ok ()
      | .ok _ => .ok ()

/-- `network.installCilium` (network.go lines 406-488): ensure helm is
available (installing it when the version check fails), add and update the
repository, run `helm install` (the argument list does not affect control
flow and is elided), then poll with selector `k8s-app=cilium`; a polling
error is only warned about and the function returns success (480-487). -/
def installCilium (_c : Config) (w : World) : Except String Unit :=
  if !w.helmFound && !w.helmGetOk then .error "failed to install Helm"
  else if !w.repoAddOk then .error "failed to add Cilium Helm repository"
  else if !w.helmInstallOk then .error "failed to install Cilium"
  else
    match waitForPodsReady "k8s-app=cilium" w.samples 300 with
    | .error _ => .ok ()
    | .ok _ => .ok ()

/-- `network.InstallPlugin` (network.go lines 67-82): dispatch on the
plugin name, with an `unsupported network plugin` error as default. -/
def InstallPlugin (c : Config) (w : World) : Except String Unit :=
  if c.plugin = Calico then installCalico c w
  else if c.plugin = Flannel then installFlannel c w
  else if c.plugin = Weave then installWeave c w
  else if c.plugin = Cilium then installCilium c w
  else .error ("unsupported network plugin: " ++ c.plugin)

/-- The pod-status sequence `["Pending", "Pending", "Running"]` of the
spec's readiness-polling example: one single pod, `Pending` on the first
two samples, `Running` from the third sample on. -/
def exampleSamples (k : Nat) : Option (List String) :=
  if k < 2 then some ["Pending"] else some ["Running"]

/-- A query sequence whose every sample shows one `Pending` pod. -/
def allPendingSamples (_k : Nat) : Option (List String) :=
  some ["Pending"]

/-- The query-outcome record used by the witnesses: every external command
succeeds, and every readiness query reports one `Pending` pod. -/
def pendingWorld : World :=
  { tigeraOk := true
    writeOk := true
    applyOk := true
    helmFound := true
    helmGetOk := true
    repoAddOk := true
    helmInstallOk := true
    samples := allPendingSamples }

/-- A config whose `CustomValues` map holds the two entries
`keyA -> 1` and `keyB -> 2` (enumerated here in one of the two possible
orders). -/
def twoCustomConfig : Config :=
  { DefaultConfig with customValues := [("keyA", "1"), ("keyB", "2")] }

end Network

namespace Container

/-- `strings.Contains(s, pat)`: substring search, scanning left to right
(container.go line 192 uses it with pattern `swap`). -/
def containsSub (pat : List Char) : List Char → Bool
  | [] => pat.isEmpty
  | c :: rest => pat.isPrefixOf (c :: rest) || containsSub pat rest

/-- `strings.TrimSpace`: drop leading and trailing whitespace. -/
def trimSpace (l : List Char) : List Char :=
  ((l.dropWhile Char.isWhitespace).reverse.dropWhile Char.isWhitespace).reverse

/-- `strings.HasPrefix(strings.TrimSpace(line), "#")` (container.go
line 192): the trimmed line starts with `#`. -/
def isCommentedLine (line : List Char) : Bool :=
  (['#']).isPrefixOf (trimSpace line)

/-- The per-line fstab rewrite of `DisableSwap` (container.go lines
190-195): prefix `"# "` to a line containing `swap` that is not already
commented, leave any other line unchanged. -/
def commentSwapLine (line : List Char) : List Char :=
  if containsSub ("swap".toList) line && !(isCommentedLine line) then
    '#' :: ' ' :: line
  else
    line

/-- The fstab rewrite of `DisableSwap` viewed on the list of lines
(container.go lines 190-195: the loop body applied to every line of the
split file, order preserved). -/
def disableSwapRewrite (lines : List (List Char)) : List (List Char) :=
  lines.map commentSwapLine

/-- First line of the spec's fstab example. -/
def fstabLine1 : List Char := "/dev/sda1 / ext4 defaults 0 1".toList

/-- Second line of the spec's fstab example (the swap entry). -/
def fstabLine2 : List Char := "/swapfile swap swap defaults 0 0".toList

/-- Third line of the spec's fstab example (already commented). -/
def fstabLine3 : List Char := "# already commented swap line".toList

end Container

namespace Distro

/-- Distribution type `Unknown` (distro.go line 11, `iota` value 0). -/
def Unknown : Nat := 0

/-- Distribution type `Debian` (distro.go line 12, `iota` value 1). -/
def Debian : Nat := 1

/-- Distribution type `RedHat` (distro.go line 13, `iota` value 2). -/
def RedHat : Nat := 2

/-- `distro.Distribution` (distro.go lines 17-22). -/
structure Distribution where
  type : Nat
  name : String
  version : String
  packageCmd : String
deriving DecidableEq

/-- The capture of the regular expressions `ID="?([^"\n]+)"?` and
`VERSION_ID="?([^"\n]+)"?` at one candidate position, applied to the text
right after the literal key: an optional opening quote, then the greedy
nonempty run of characters other than `"` and newline (the capture group),
then an optional closing quote.  `none` when the group cannot match. -/
def captureValue (rest : List Char) : Option (List Char) :=
  let r1 := match rest with
    | '"' :: r => r
    | r => r
  let cap := r1.takeWhile (fun c => c ≠ '"' ∧ c ≠ '\n')
  if cap.isEmpty then none else some cap

/-- `regexp.FindStringSubmatch` for a pattern `key` followed by
`"?([^"\n]+)"?`: scan left to right for the first position where the
literal key matches and the capture group succeeds, and return that
capture. -/
def findKeyCapture (key : List Char) : List Char → Option (List Char)
  | [] => none
  | c :: rest =>
    if key.isPrefixOf (c :: rest) then
      match captureValue ((c :: rest).drop key.length) with
      | some cap => some cap
      | none => findKeyCapture key rest
    else
      findKeyCapture key rest

/-- The `ID=` part of `distro.Detect` (distro.go lines 41-55): when the
name regex matched, set `Name` and switch on it to set `Type` and
`PackageCmd` (`ubuntu`/`debian` give Debian with `apt-get`,
`centos`/`rhel`/`fedora` give RedHat with `yum`, anything else keeps type
`Unknown`); when it did not match, keep the zero `Distribution`. -/
def idSwitch : Option (List Char) → Distribution
  | some cap =>
    let n := String.mk cap
    if n = "ubuntu" ∨ n = "debian" then
      { type := Debian, name := n, version := "", packageCmd := "apt-get" }
    else if n = "centos" ∨ n = "rhel" ∨ n = "fedora" then
      { type := RedHat, name := n, version := "", packageCmd := "yum" }
    else
      { type := Unknown, name := n, version := "", packageCmd := "" }
  | none => { type := Unknown, name := "", version := "", packageCmd := "" }

/-- The `VERSION_ID=` part of `distro.Detect` (distro.go lines 57-59):
fill `Version` when the version regex matched. -/
def versionFill (d : Distribution) : Option (List Char) → Distribution
  | some cap => { d with version := String.mk cap }
  | none => d

/-- The pure part of `distro.Detect` (distro.go lines 25-61), applied to
the contents of `/etc/os-release`: fill `Name`/`Type`/`PackageCmd` from
the first `ID="?([^"\n]+)"?` capture, then `Version` from the first
`VERSION_ID="?([^"\n]+)"?` capture. -/
def detectFromContents (osRelease : String) : Distribution :=
  versionFill (idSwitch (findKeyCapture ("ID=".toList) osRelease.toList))
    (findKeyCapture ("VERSION_ID=".toList) osRelease.toList)

/-- `distro.Detect` (distro.go lines 25-61): the release-file read is
modelled by an `Option String` (`none` = unreadable); a read error is
returned as-is (lines 29-31) and every readable body yields a
`Distribution` with no error (the remaining code has no error path). -/
def Detect : Option String → Except String Distribution
  | none => .error "read error"
  | some contents => .ok (detectFromContents contents)

/-- An os-release body that contains the lines `ID=ubuntu` and
`VERSION_ID="22.04"`, with the version line first. -/
def reorderedBody : String := "VERSION_ID=\"22.04\"\nID=ubuntu"

end Distro

namespace Kubernetes

/-- The error `TaintNode` wraps around a failed kubectl invocation
(kubernetes.go line 534); the underlying process error is elided. -/
def taintErrMsg (taint : String) : String := "failed to add taint " ++ taint

/-- The error `LabelNode` wraps around a failed kubectl invocation
(kubernetes.go line 520). -/
def labelErrMsg (kv : String × String) : String :=
  "failed to add label " ++ kv.1 ++ "=" ++ kv.2

/-- `kubernetes.TaintNode` (kubernetes.go lines 528-539): apply the taints
in order, stopping at the first failed `kubectl taint` invocation.  `run`
fixes which invocations succeed; the first component of the result is the
list of invocations actually made (in order), the second the returned
error or success.  No invocation ever removes a taint. -/
def TaintNode (run : String → Bool) : List String → List String × Except String Unit
  | [] => ([], .ok ())
  | t :: ts =>
    if run t then
      let r := TaintNode run ts
      (t :: r.1, r.2)
    else
      ([t], .error (taintErrMsg t))

/-- `kubernetes.LabelNode` (kubernetes.go lines 514-525): the same loop
over the label map's entries, in the order `range` enumerates them. -/
def LabelNode (run : String × String → Bool) :
    List (String × String) → List (String × String) × Except String Unit
  | [] => ([], .ok ())
  | kv :: kvs =>
    if run kv then
      let r := LabelNode run kvs
      (kv :: r.1, r.2)
    else
      ([kv], .error (labelErrMsg kv))

end Kubernetes

-- Theorems start here (to be continued).

namespace Network

theorem waitFrom_cases (sel : String) (samples : Nat → Option (List String)) (T : Nat) :
    ∀ n k, T + 10 - 10 * k ≤ n →
      waitForPodsReadyFrom sel samples T k = .ok () ∨
      waitForPodsReadyFrom sel samples T k = .error (timeoutMsg sel) := by
  intro n
  induction n with
  | zero =>
    intro k hk
    rw [waitForPodsReadyFrom]
    have h : 10 * k > T := by omega
    simp [h]
  | succ n ih =>
    intro k hk
    rw [waitForPodsReadyFrom]
    by_cases h : 10 * k > T
    · simp [h]
    · simp only [h, dite_false]
      by_cases hg : goodSample (samples k) = true
      · simp [hg]
      · simp only [Bool.not_eq_true] at hg
        simp only [hg, Bool.false_eq_true, if_false]
        exact ih (k + 1) (by omega)

theorem waitFrom_ok_iff (sel : String) (samples : Nat → Option (List String)) (T : Nat) :
    ∀ n k, T + 10 - 10 * k ≤ n →
      (waitForPodsReadyFrom sel samples T k = .ok () ↔
        ∃ j, k ≤ j ∧ 10 * j ≤ T ∧ goodSample (samples j) = true) := by
  intro n
  induction n with
  | zero =>
    intro k hk
    rw [waitForPodsReadyFrom]
    have h : 10 * k > T := by omega
    simp only [h, dite_true]
    constructor
    · intro hcontra
      exact absurd hcontra (by simp)
    · rintro ⟨j, hj, hjT, _⟩
      omega
  | succ n ih =>
    intro k hk
    rw [waitForPodsReadyFrom]
    by_cases h : 10 * k > T
    · simp only [h, dite_true]
      constructor
      · intro hcontra
        exact absurd hcontra (by simp)
      · rintro ⟨j, hj, hjT, _⟩
        omega
    · simp only [h, dite_false]
      by_cases hg : goodSample (samples k) = true
      · simp only [hg, if_true]
        constructor
        · intro _
          exact ⟨k, le_refl k, by omega, hg⟩
        · intro _
          trivial
      · simp only [Bool.not_eq_true] at hg
        simp only [hg, Bool.false_eq_true, if_false]
        rw [ih (k + 1) (by omega)]
        constructor
        · rintro ⟨j, hj, hjT, hgood⟩
          exact ⟨j, by omega, hjT, hgood⟩
        · rintro ⟨j, hj, hjT, hgood⟩
          refine ⟨j, ?_, hjT, hgood⟩
          rcases Nat.eq_or_lt_of_le hj with rfl | hlt
          · rw [hgood] at hg
            exact absurd hg (by simp)
          · omega

theorem waitForPodsReady_ok_iff (sel : String) (samples : Nat → Option (List String)) (T : Nat) :
    waitForPodsReady sel samples T = .ok () ↔
      ∃ j, 10 * j ≤ T ∧ goodSample (samples j) = true := by
  rw [waitForPodsReady, waitFrom_ok_iff sel samples T (T + 10 - 0) 0 (by omega)]
  constructor
  · rintro ⟨j, _, hjT, hgood⟩
    exact ⟨j, hjT, hgood⟩
  · rintro ⟨j, hjT, hgood⟩
    exact ⟨j, Nat.zero_le j, hjT, hgood⟩

theorem waitForPodsReady_cases (sel : String) (samples : Nat → Option (List String)) (T : Nat) :
    waitForPodsReady sel samples T = .ok () ∨
      waitForPodsReady sel samples T = .error (timeoutMsg sel) :=
  waitFrom_cases sel samples T (T + 10 - 0) 0 (by omega)

theorem waitForPodsReady_timeout (sel : String) (samples : Nat → Option (List String)) (T : Nat)
    (h : ∀ k, goodSample (samples k) = false) :
    waitForPodsReady sel samples T = .error (timeoutMsg sel) := by
  rcases waitForPodsReady_cases sel samples T with hok | herr
  · rw [waitForPodsReady_ok_iff] at hok
    rcases hok with ⟨j, _, hgood⟩
    rw [h j] at hgood
    exact absurd hgood (by simp)
  · exact herr

/-- C1: the Calico encapsulation computed by `installCalico` is a pure
function of `(IPIPMode, VXLANMode)`: when `VXLANMode ≠ "Never"` it is
`"VXLAN" ++ VXLANMode` regardless of `IPIPMode`; otherwise it is `"None"`
when `IPIPMode = "Never"` and `"IPIP"` otherwise.  In particular
`("Always", "CrossSubnet") ↦ "VXLANCrossSubnet"`,
`("Never", "Never") ↦ "None"` and `("Always", "Never") ↦ "IPIP"`. -/
theorem calicoEncapsulation_spec :
    (∀ ipip vxlan : String,
      calicoEncapsulation ipip vxlan =
        (if vxlan ≠ "Never" then "VXLAN" ++ vxlan
         else if ipip = "Never" then "None" else "IPIP"))
    ∧ calicoEncapsulation "Always" "CrossSubnet" = "VXLANCrossSubnet"
    ∧ calicoEncapsulation "Never" "Never" = "None"
    ∧ calicoEncapsulation "Always" "Never" = "IPIP" :=
  ⟨fun _ _ => rfl, by decide, by decide, by decide⟩

/-- C4: `ValidateCIDR` succeeds exactly on strings containing the
character `/`; a string without `/` is rejected with the format error.
`"10.244.0.0/16"` is accepted, `"10.244.0.0"` rejected. -/
theorem ValidateCIDR_spec :
    (∀ s : String, '/' ∈ s.toList → ValidateCIDR s = .ok ())
    ∧ (∀ s : String, '/' ∉ s.toList →
        ValidateCIDR s =
          .error ("invalid CIDR format: " ++ s ++ ", should be in format x.x.x.x/y"))
    ∧ ValidateCIDR "10.244.0.0/16" = .ok ()
    ∧ ValidateCIDR "10.244.0.0" =
        .error "invalid CIDR format: 10.244.0.0, should be in format x.x.x.x/y" := by
  refine ⟨fun s hs => ?_, fun s hs => ?_, rfl, rfl⟩
  · have hc : s.toList.contains '/' = true := by simpa using hs
    rw [ValidateCIDR, hc]
    rfl
  · have hc : s.toList.contains '/' = false := by simpa using hs
    rw [ValidateCIDR, hc]
    rfl

/-- C10: the configuration returned by `DefaultConfig` is well-formed for
installation: its plugin is the supported value `calico`, so
`InstallPlugin` on it dispatches to `installCalico` (never the
unsupported-plugin error branch), and its pod CIDR `"10.244.0.0/16"`
contains `/`, so `ValidateCIDR` accepts it. -/
theorem DefaultConfig_wellFormed :
    DefaultConfig.plugin = Calico
    ∧ (∀ w : World, InstallPlugin DefaultConfig w = installCalico DefaultConfig w)
    ∧ ValidateCIDR DefaultConfig.podCIDR = .ok () :=
  ⟨rfl, fun _ => rfl, rfl⟩

/-- C2: the readiness-polling loop returns success exactly when some
sample taken within the timeout shows at least one pod with every pod
`Running`; otherwise it returns the timeout error (never success).  For
the sample sequence `["Pending", "Pending", "Running"]` the first two
samples fail the test and the loop returns success at the third sample
(iteration 2); for all-`Pending` samples it returns the timeout error. -/
theorem waitForPodsReady_spec :
    (∀ (sel : String) (samples : Nat → Option (List String)) (T : Nat),
      waitForPodsReady sel samples T = .ok () ↔
        ∃ j, 10 * j ≤ T ∧ goodSample (samples j) = true)
    ∧ (∀ (sel : String) (samples : Nat → Option (List String)) (T : Nat),
      waitForPodsReady sel samples T = .ok () ∨
      waitForPodsReady sel samples T = .error (timeoutMsg sel))
    ∧ goodSample (exampleSamples 0) = false
    ∧ goodSample (exampleSamples 1) = false
    ∧ goodSample (exampleSamples 2) = true
    ∧ waitForPodsReadyFrom "k8s-app=calico-node" exampleSamples 300 2 = .ok ()
    ∧ waitForPodsReady "k8s-app=calico-node" exampleSamples 300 = .ok ()
    ∧ waitForPodsReady "k8s-app=calico-node" allPendingSamples 300 =
        .error (timeoutMsg "k8s-app=calico-node") := by
  refine ⟨waitForPodsReady_ok_iff, waitForPodsReady_cases, by decide, by decide, by decide,
    ?_, ?_, ?_⟩
  · rw [waitForPodsReadyFrom]
    norm_num [exampleSamples, goodSample]
  · exact (waitForPodsReady_ok_iff _ _ _).mpr ⟨2, by omega, by decide⟩
  · exact waitForPodsReady_timeout _ _ _ (fun k => rfl)

/-- C3: when every step up to and including the manifest apply (or Helm
install) succeeds but the readiness poll never observes a ready sample
(so it times out), each of the four installers still returns success, and
`InstallPlugin` returns success for each of the four plugin names: a
polling timeout is never an error of the installer. -/
theorem installers_ok_on_poll_timeout (c : Config) (w : World)
    (hcidr : ValidateCIDR c.podCIDR = .ok ())
    (ht : w.tigeraOk = true) (hw : w.writeOk = true) (ha : w.applyOk = true)
    (hh : w.helmFound = true) (hr : w.repoAddOk = true) (hi : w.helmInstallOk = true)
    (hpoll : ∀ k, goodSample (w.samples k) = false) :
    (∀ sel, waitForPodsReady sel w.samples 300 = .error (timeoutMsg sel))
    ∧ installCalico c w = .ok ()
    ∧ installFlannel c w = .ok ()
    ∧ installWeave c w = .ok ()
    ∧ installCilium c w = .ok ()
    ∧ InstallPlugin { c with plugin := Calico } w = .ok ()
    ∧ InstallPlugin { c with plugin := Flannel } w = .ok ()
    ∧ InstallPlugin { c with plugin := Weave } w = .ok ()
    ∧ InstallPlugin { c with plugin := Cilium } w = .ok () := by
  have hto : ∀ sel, waitForPodsReady sel w.samples 300 = .error (timeoutMsg sel) :=
    fun sel => waitForPodsReady_timeout sel w.samples 300 hpoll
  have hcal : installCalico c w = .ok () := by
    rw [installCalico, hcidr]
    simp only [ht, hw, ha, Bool.not_true, Bool.false_eq_true, if_false]
    rw [hto "k8s-app=calico-node"]
  have hfla : installFlannel c w = .ok () := by
    rw [installFlannel, hcidr]
    simp only [hw, ha, Bool.not_true, Bool.false_eq_true, if_false]
    rw [hto "app=flannel"]
  have hwea : installWeave c w = .ok () := by
    rw [installWeave]
    have hv : (if c.podCIDR ≠ "" then ValidateCIDR c.podCIDR else .ok ()) = .ok () := by
      by_cases hpc : c.podCIDR = "" <;> simp [hpc, hcidr]
    rw [hv]
    simp only [ha, Bool.not_true, Bool.false_eq_true, if_false]
    rw [hto "name=weave-net"]
  have hcil : installCilium c w = .ok () := by
    rw [installCilium]
    simp only [hh, hr, hi, Bool.not_true, Bool.false_and, Bool.false_eq_true, if_false]
    rw [hto "k8s-app=cilium"]
  have hdc : ∀ p : String, ({ c with plugin := p } : Config).podCIDR = c.podCIDR :=
    fun _ => rfl
  refine ⟨hto, hcal, hfla, hwea, hcil, ?_, ?_, ?_, ?_⟩
  · rw [InstallPlugin]
    simpa [Calico] using hcal
  · rw [InstallPlugin]
    simp only [Flannel, Calico, reduceIte]
    simpa [Flannel] using hfla
  · rw [InstallPlugin]
    simp only [Weave, Calico, Flannel, reduceIte]
    simpa [Weave] using hwea
  · rw [InstallPlugin]
    simp only [Cilium, Calico, Flannel, Weave, reduceIte]
    simpa [Cilium] using hcil

/-- Witness for C3: at the default configuration and a run where every
command succeeds while every readiness sample shows a `Pending` pod, all
four installers and `InstallPlugin` return success. -/
theorem installers_ok_on_poll_timeout_witness :
    installCalico DefaultConfig pendingWorld = .ok ()
    ∧ installFlannel DefaultConfig pendingWorld = .ok ()
    ∧ installWeave DefaultConfig pendingWorld = .ok ()
    ∧ installCilium DefaultConfig pendingWorld = .ok ()
    ∧ InstallPlugin { DefaultConfig with plugin := Cilium } pendingWorld = .ok () := by
  have h := installers_ok_on_poll_timeout DefaultConfig pendingWorld rfl
    rfl rfl rfl rfl rfl rfl (fun k => rfl)
  exact ⟨h.2.1, h.2.2.1, h.2.2.2.1, h.2.2.2.2.1, h.2.2.2.2.2.2.2.2⟩

end Network

namespace Network

set_option maxRecDepth 8000 in
/-- C8 counterexample: the two enumeration orders of the two-entry
`CustomValues` map `keyA -> 1, keyB -> 2` are permutations of each other
(the same map), yet the rendered Calico custom-resources texts differ, so
two runs of the rendering on this one config need not produce identical
text. -/
theorem calicoResources_order_dependent :
    (twoCustomConfig.customValues).Perm [("keyB", "2"), ("keyA", "1")]
    ∧ calicoResources twoCustomConfig twoCustomConfig.customValues ≠
        calicoResources twoCustomConfig [("keyB", "2"), ("keyA", "1")] := by
  constructor
  · decide
  · decide

/-- C8 amended: the rendered Calico custom-resources text is a pure
function of the config together with the order in which `range` enumerates
the `CustomValues` map, so two runs produce identical text whenever that
map holds at most one entry; with two or more entries distinct enumeration
orders may differ (see the counterexample). -/
theorem calicoResources_deterministic_of_short (c : Config)
    (o1 o2 : List (String × String)) (hperm : o1.Perm o2) (hlen : o1.length ≤ 1) :
    calicoResources c o1 = calicoResources c o2 := by
  have heq : o1 = o2 := by
    cases o1 with
    | nil => exact hperm.nil_eq
    | cons a rest =>
      cases rest with
      | nil => exact List.singleton_perm.mp hperm
      | cons b rest2 => simp [List.length_cons] at hlen
  rw [heq]

/-- Witness for the amended C8: at the default config and the one-entry
order `[("keyA", "1")]` the hypotheses hold and the rendering agrees. -/
theorem calicoResources_deterministic_of_short_witness :
    calicoResources DefaultConfig [("keyA", "1")] =
      calicoResources DefaultConfig [("keyA", "1")] :=
  calicoResources_deterministic_of_short DefaultConfig [("keyA", "1")] [("keyA", "1")]
    (List.Perm.refl _) (by decide)

end Network

namespace Container

theorem containsSub_cons (pat : List Char) (c : Char) (l : List Char)
    (h : containsSub pat l = true) : containsSub pat (c :: l) = true := by
  rw [containsSub, h]
  simp

theorem isCommentedLine_comment (l : List Char) :
    isCommentedLine ('#' :: ' ' :: l) = true := by
  rw [isCommentedLine, trimSpace]
  have h1 : List.dropWhile Char.isWhitespace ('#' :: ' ' :: l) = '#' :: ' ' :: l := by
    simp [List.dropWhile]
  rw [h1, List.reverse_cons, List.reverse_cons, List.dropWhile_append]
  by_cases h2 : (List.dropWhile Char.isWhitespace (l.reverse ++ [' '])).isEmpty
  · simp only [h2, if_true]
    simp [List.dropWhile, List.isPrefixOf]
  · simp [h2, List.reverse_append, List.isPrefixOf]

theorem commentSwapLine_idem (l : List Char) :
    commentSwapLine (commentSwapLine l) = commentSwapLine l := by
  by_cases hc : (containsSub ("swap".toList) l && !(isCommentedLine l)) = true
  · have h1 : commentSwapLine l = '#' :: ' ' :: l := by
      rw [commentSwapLine, if_pos hc]
    rw [h1, commentSwapLine, isCommentedLine_comment l]
    simp
  · have h1 : commentSwapLine l = l := by
      rw [commentSwapLine, if_neg hc]
    rw [h1]
    exact h1

/-- C5: the fstab rewrite of `DisableSwap`, as a function on the list of
lines, prefixes `"# "` to exactly those lines that contain `swap` and whose
trimmed text does not already start with `#`, leaves every other line
unchanged, preserves line order and count, and is idempotent.  On the
spec's three-line example only the second line is commented. -/
theorem disableSwapRewrite_spec :
    (∀ lines : List (List Char), (disableSwapRewrite lines).length = lines.length)
    ∧ (∀ (lines : List (List Char)) (i : Nat),
        (disableSwapRewrite lines)[i]? = (lines[i]?).map commentSwapLine)
    ∧ (∀ line : List Char, containsSub ("swap".toList) line = true →
        isCommentedLine line = false → commentSwapLine line = '#' :: ' ' :: line)
    ∧ (∀ line : List Char, containsSub ("swap".toList) line = false →
        commentSwapLine line = line)
    ∧ (∀ line : List Char, isCommentedLine line = true → commentSwapLine line = line)
    ∧ (∀ lines : List (List Char),
        disableSwapRewrite (disableSwapRewrite lines) = disableSwapRewrite lines)
    ∧ disableSwapRewrite [fstabLine1, fstabLine2, fstabLine3] =
        [fstabLine1, '#' :: ' ' :: fstabLine2, fstabLine3] := by
  refine ⟨fun lines => by simp [disableSwapRewrite],
    fun lines i => List.getElem?_map commentSwapLine lines i,
    fun line h1 h2 => by rw [commentSwapLine, h1, h2]; simp,
    fun line h1 => by rw [commentSwapLine, h1]; simp,
    fun line h1 => by rw [commentSwapLine, h1]; simp,
    fun lines => ?_, by decide⟩
  rw [disableSwapRewrite, disableSwapRewrite, List.map_map]
  refine List.map_congr_left (fun l _ => ?_)
  simp only [Function.comp_apply]
  exact commentSwapLine_idem l

end Container

namespace Distro

/-- C6 counterexample: the body `"VERSION_ID=\"22.04\"\nID=ubuntu"`
contains both the line `ID=ubuntu` and the line `VERSION_ID="22.04"`, yet
detection yields name `"22.04"` and type `Unknown` (the leftmost match of
the `ID="?([^"\n]+)"?` regex is inside `VERSION_ID="22.04"`), not the
Debian/ubuntu result the claim requires for every such body. -/
theorem detect_reordered_body_misparses :
    reorderedBody = "VERSION_ID=\"22.04\"" ++ "\n" ++ "ID=ubuntu"
    ∧ detectFromContents reorderedBody =
        { type := Unknown, name := "22.04", version := "22.04", packageCmd := "" }
    ∧ ¬ ((detectFromContents reorderedBody).type = Debian
        ∧ (detectFromContents reorderedBody).name = "ubuntu"
        ∧ (detectFromContents reorderedBody).version = "22.04") := by
  refine ⟨rfl, by decide, by decide⟩

/-- C6 amended: for every os-release body that begins with the line
`ID=ubuntu` followed by `VERSION_ID="22.04"` (so that these are the
leftmost matches of the two regexes), detection yields type Debian, name
`"ubuntu"`, version `"22.04"` (and package command `apt-get`); and for
every body that begins with the line `ID=arch`, detection yields type
`Unknown`. -/
theorem detect_spec_amended :
    (∀ post : List Char,
      detectFromContents (String.mk ("ID=ubuntu\nVERSION_ID=\"22.04\"".toList ++ post)) =
        { type := Debian, name := "ubuntu", version := "22.04", packageCmd := "apt-get" })
    ∧ (∀ post : List Char,
      (detectFromContents (String.mk ("ID=arch\n".toList ++ post))).type = Unknown)
    ∧ detectFromContents "ID=ubuntu\nVERSION_ID=\"22.04\"\n" =
        { type := Debian, name := "ubuntu", version := "22.04", packageCmd := "apt-get" }
    ∧ (detectFromContents "ID=arch").type = Unknown := by
  refine ⟨fun post => ?_, fun post => ?_, by decide, by decide⟩
  · have hid : findKeyCapture ("ID=".toList)
        ("ID=ubuntu\nVERSION_ID=\"22.04\"".toList ++ post) = some ("ubuntu".toList) := by
      simp +decide [findKeyCapture, captureValue, List.isPrefixOf, List.takeWhile]
    have hver : findKeyCapture ("VERSION_ID=".toList)
        ("ID=ubuntu\nVERSION_ID=\"22.04\"".toList ++ post) = some ("22.04".toList) := by
      simp +decide [findKeyCapture, captureValue, List.isPrefixOf, List.takeWhile]
    show versionFill (idSwitch (findKeyCapture ("ID=".toList)
        ("ID=ubuntu\nVERSION_ID=\"22.04\"".toList ++ post)))
        (findKeyCapture ("VERSION_ID=".toList)
          ("ID=ubuntu\nVERSION_ID=\"22.04\"".toList ++ post)) = _
    rw [hid, hver]
    decide
  · have hid : findKeyCapture ("ID=".toList)
        ("ID=arch\n".toList ++ post) = some ("arch".toList) := by
      simp +decide [findKeyCapture, captureValue, List.isPrefixOf, List.takeWhile]
    show (versionFill (idSwitch (findKeyCapture ("ID=".toList)
        ("ID=arch\n".toList ++ post)))
        (findKeyCapture ("VERSION_ID=".toList) ("ID=arch\n".toList ++ post))).type = _
    rw [hid]
    cases hv : findKeyCapture ("VERSION_ID=".toList) ("ID=arch\n".toList ++ post) with
    | none => rfl
    | some cap => rfl

/-- C7: `Detect` fails exactly when the release file is unreadable; every
readable body, including one with an unrecognized or missing `ID`, yields
a `Distribution` and no error. -/
theorem Detect_spec :
    Detect none = .error "read error"
    ∧ (∀ contents : String, Detect (some contents) = .ok (detectFromContents contents))
    ∧ Detect (some "NAME=Arch Linux\n") =
        .ok { type := Unknown, name := "", version := "", packageCmd := "" }
    ∧ Detect (some "ID=arch\n") =
        .ok { type := Unknown, name := "arch", version := "", packageCmd := "" } :=
  ⟨rfl, fun _ => rfl, rfl, rfl⟩

end Distro

namespace Kubernetes

/-- C9: `TaintNode` applies the taint list in order; when every kubectl
invocation succeeds it attempts exactly the given entries and returns
success, and when the first failing entry is reached it returns that
entry's error immediately, having attempted exactly the prior entries plus
the failing one (no later entry is attempted, no applied entry is undone).
`LabelNode` behaves the same way on the label map's entries. -/
theorem taintNode_labelNode_spec :
    (∀ (run : String → Bool) (taints : List String),
      (∀ t ∈ taints, run t = true) → TaintNode run taints = (taints, .ok ()))
    ∧ (∀ (run : String → Bool) (pre : List String) (t : String) (post : List String),
      (∀ p ∈ pre, run p = true) → run t = false →
      TaintNode run (pre ++ t :: post) = (pre ++ [t], .error (taintErrMsg t)))
    ∧ (∀ (run : String × String → Bool) (labels : List (String × String)),
      (∀ kv ∈ labels, run kv = true) → LabelNode run labels = (labels, .ok ()))
    ∧ (∀ (run : String × String → Bool) (pre : List (String × String))
        (kv : String × String) (post : List (String × String)),
      (∀ p ∈ pre, run p = true) → run kv = false →
      LabelNode run (pre ++ kv :: post) = (pre ++ [kv], .error (labelErrMsg kv))) := by
  refine ⟨fun run taints h => ?_, fun run pre t post hpre ht => ?_,
    fun run labels h => ?_, fun run pre kv post hpre hkv => ?_⟩
  · induction taints with
    | nil => rfl
    | cons t ts ih =>
      have h0 : run t = true := h t (List.mem_cons_self t ts)
      have ih' := ih (fun x hx => h x (List.mem_cons_of_mem t hx))
      rw [TaintNode, h0, ih']
      rfl
  · induction pre with
    | nil =>
      rw [List.nil_append, TaintNode, ht]
      simp
    | cons p ps ih =>
      have h0 : run p = true := hpre p (List.mem_cons_self p ps)
      have ih' := ih (fun x hx => hpre x (List.mem_cons_of_mem p hx))
      rw [List.cons_append, TaintNode, h0, ih']
      simp
  · induction labels with
    | nil => rfl
    | cons kv kvs ih =>
      have h0 : run kv = true := h kv (List.mem_cons_self kv kvs)
      have ih' := ih (fun x hx => h x (List.mem_cons_of_mem kv hx))
      rw [LabelNode, h0, ih']
      rfl
  · induction pre with
    | nil =>
      rw [List.nil_append, LabelNode, hkv]
      simp
    | cons p ps ih =>
      have h0 : run p = true := hpre p (List.mem_cons_self p ps)
      have ih' := ih (fun x hx => hpre x (List.mem_cons_of_mem p hx))
      rw [List.cons_append, LabelNode, h0, ih']
      simp

end Kubernetes
